import Mathlib

/-!
Verification development for the aori-rs client library.

The development shallowly embeds the two source modules:
  * `crates/types/src/seaport.rs` — the typed order model (`OrderComponents`,
    `OfferItem`, `ConsiderationItem`, the `ItemType`/`OrderType` enums) and the
    process-wide `SEAPORT_DOMAIN` descriptor;
  * `crates/requests/src/aori_provider.rs` — the `AoriProvider` RPC session:
    construction from the environment (`new_from_env`) and the six methods
    `ping`, `auth_wallet`, `check_auth`, `view_orderbook`, `make_order`,
    `subscribe_orderbook`, each of which increments `last_id`, builds a
    JSON-RPC envelope and sends it on one of the two websocket channels.

Machine integers (u64 counters, 256-bit amounts, 160-bit addresses) are
modelled as `Nat` with explicit bounds/`% 2^w` where the code narrows.
External effects (environment variables, websocket connects and sends, the
secp256k1 signing primitive, the node's chain-id query) are modelled as
explicit oracles: a `World` record for construction, a `sendOk` outcome per
send, and a signer function held by the session.  The final cryptographic
hash of the EIP-712 digest pipeline is an explicit function parameter `h`;
everything around it (the canonical typed-data encoding) is spelled out.
-/

/-! ## JSON values

`serde_json::Value`, as far as the envelopes need it.  Objects keep the field
order in which the code writes them. -/

inductive Json where
  | null : Json
  | bool : Bool → Json
  | num : Nat → Json
  | str : String → Json
  | arr : List Json → Json
  | obj : List (String × Json) → Json

/-- Field lookup in a JSON object (`none` on non-objects and absent keys). -/
def Json.getField : Json → String → Option Json
  | .obj fields, k => fields.lookup k
  | _, _ => none

/-- The first element of a JSON array (`none` otherwise); used to traverse the
one-object `params` arrays of the envelopes. -/
def Json.arrHead : Json → Option Json
  | .arr (x :: _) => some x
  | _ => none

/-! ## Byte-level encoding helpers for the typed-data digest -/

/-- The bytes of a string, one `Nat` per character code. -/
def strBytes (s : String) : List Nat := s.data.map Char.toNat

/-- Big-endian base-256 rendering of `n` into exactly `k` bytes (the low
`k` bytes of `n`). -/
def wordAux : Nat → Nat → List Nat
  | 0, _ => []
  | k + 1, n => wordAux k (n / 256) ++ [n % 256]

/-- A 32-byte big-endian word, the unit of EIP-712 `encodeData`. -/
def word (n : Nat) : List Nat := wordAux 32 n

/-! ## The typed order model (`crates/types/src/seaport.rs`) -/

inductive ItemType where
  | NATIVE
  | ERC20
  | ERC721
  | ERC1155
  | ERC721_WITH_CRITERIA
  | ERC1155_WITH_CRITERIA

/-- The underlying small integer of the `ItemType` enum (`ItemType::X as u8`). -/
def ItemType.toNat : ItemType → Nat
  | .NATIVE => 0
  | .ERC20 => 1
  | .ERC721 => 2
  | .ERC1155 => 3
  | .ERC721_WITH_CRITERIA => 4
  | .ERC1155_WITH_CRITERIA => 5

inductive OrderType where
  | FULL_OPEN
  | PARTIAL_OPEN
  | FULL_RESTRICTED
  | PARTIAL_RESTRICTED
  | CONTRACT

/-- The underlying small integer of the `OrderType` enum. -/
def OrderType.toNat : OrderType → Nat
  | .FULL_OPEN => 0
  | .PARTIAL_OPEN => 1
  | .FULL_RESTRICTED => 2
  | .PARTIAL_RESTRICTED => 3
  | .CONTRACT => 4

/-- `OfferItem` of `seaport.rs`: `itemType` is the enum's `u8`, `token` a
160-bit address, the remaining fields 256-bit unsigned integers. -/
structure OfferItem where
  itemType : Nat
  token : Nat
  identifierOrCriteria : Nat
  startAmount : Nat
  endAmount : Nat

/-- `ConsiderationItem` of `seaport.rs`: an `OfferItem` plus a `recipient`
address. -/
structure ConsiderationItem where
  itemType : Nat
  token : Nat
  identifierOrCriteria : Nat
  startAmount : Nat
  endAmount : Nat
  recipient : Nat

/-- `OrderComponents` of `seaport.rs`, the canonical hash-stable order form. -/
structure OrderComponents where
  offerer : Nat
  zone : Nat
  offer : List OfferItem
  consideration : List ConsiderationItem
  orderType : Nat
  startTime : Nat
  endTime : Nat
  zoneHash : Nat
  salt : Nat
  conduitKey : Nat
  counter : Nat

/-! ## The EIP-712 domain and digest engine

The digest engine itself lives in the `alloy_sol_types` dependency
(`eip712_signing_hash`); the spec fixes its algorithm (canonical typed-data
encoding, struct type hashes, nested struct and dynamic array hashing, the
two-byte `0x19 0x01` prefix, one final 32-byte cryptographic hash).  The
cryptographic hash is taken as an explicit parameter
`h : List Nat → List Nat`; the encoding around it is definitional. -/

structure Eip712Domain where
  name : List Nat
  version : List Nat
  chain_id : Nat
  verifying_contract : Nat

/-- Modelled from the spec: the EIP-712 domain type signature from which the
domain's struct type hash is computed (`name`, `version`, `chainId`,
`verifyingContract`, in this order). -/
def domainTypeString : String :=
  "EIP712Domain(string name,string version,uint256 chainId,address verifyingContract)"

/-- Modelled from the spec: the struct type signature of `OfferItem`. -/
def offerItemTypeString : String :=
  "OfferItem(uint8 itemType,address token,uint256 identifierOrCriteria,uint256 startAmount,uint256 endAmount)"

/-- Modelled from the spec: the struct type signature of `ConsiderationItem`. -/
def considerationItemTypeString : String :=
  "ConsiderationItem(uint8 itemType,address token,uint256 identifierOrCriteria,uint256 startAmount,uint256 endAmount,address recipient)"

/-- Modelled from the spec: the struct type signature of `OrderComponents`,
followed by the referenced struct types in name order. -/
def orderComponentsTypeString : String :=
  "OrderComponents(address offerer,address zone,OfferItem[] offer,ConsiderationItem[] consideration,uint8 orderType,uint256 startTime,uint256 endTime,bytes32 zoneHash,uint256 salt,bytes32 conduitKey,uint256 counter)"
  ++ considerationItemTypeString ++ offerItemTypeString

/-- Modelled from the spec: the `encodeData` of the domain — the domain type
hash followed by the hash of each string field and the 32-byte words of
`chain_id` and `verifying_contract`. -/
def encodeDomain (h : List Nat → List Nat) (d : Eip712Domain) : List Nat :=
  h (strBytes domainTypeString) ++
    (h d.name ++ (h d.version ++ (word d.chain_id ++ word d.verifying_contract)))

/-- Modelled from the spec: the domain separator, the hash of the domain's
own encoding. -/
def domainSeparator (h : List Nat → List Nat) (d : Eip712Domain) : List Nat :=
  h (encodeDomain h d)

/-- Modelled from the spec: the struct hash of one `OfferItem`. -/
def hashOfferItem (h : List Nat → List Nat) (i : OfferItem) : List Nat :=
  h (h (strBytes offerItemTypeString) ++
    (word i.itemType ++ (word i.token ++ (word i.identifierOrCriteria ++
      (word i.startAmount ++ word i.endAmount)))))

/-- Modelled from the spec: the struct hash of one `ConsiderationItem`. -/
def hashConsiderationItem (h : List Nat → List Nat) (i : ConsiderationItem) : List Nat :=
  h (h (strBytes considerationItemTypeString) ++
    (word i.itemType ++ (word i.token ++ (word i.identifierOrCriteria ++
      (word i.startAmount ++ (word i.endAmount ++ word i.recipient))))))

/-- Modelled from the spec: the struct hash of an order — the order's type
hash, each word-sized field as a 32-byte word, each dynamic array as the hash
of the concatenation of its elements' struct hashes. -/
def hashStructOrder (h : List Nat → List Nat) (o : OrderComponents) : List Nat :=
  h (h (strBytes orderComponentsTypeString) ++
    (word o.offerer ++ (word o.zone ++
      (h (List.flatten (o.offer.map (hashOfferItem h))) ++
        (h (List.flatten (o.consideration.map (hashConsiderationItem h))) ++
          (word o.orderType ++ (word o.startTime ++ (word o.endTime ++
            (word o.zoneHash ++ (word o.salt ++ (word o.conduitKey ++
              word o.counter)))))))))))

/-- Modelled from the spec: the typed-data signing hash — the final hash of
the two-byte `0x19 0x01` prefix, the domain separator and the order's struct
hash.  This is `OrderComponents::eip712_signing_hash` as `make_order` calls
it. -/
def eip712_signing_hash (h : List Nat → List Nat) (o : OrderComponents)
    (d : Eip712Domain) : List Nat :=
  h (0x19 :: 0x01 :: (domainSeparator h d ++ hashStructOrder h o))

/-! ## The process-wide Seaport domain (`seaport.rs`, `SEAPORT_DOMAIN`)

The `once_cell::Lazy` static is a plain constant here: it is computed once
per process and immutable thereafter. -/

/-- Modelled from the spec: `CURRENT_SEAPORT_VERSION` lives in the constants
module, which is not among the sources here; the spec records only that it is
the protocol-version string constant.  Its exact value is irrelevant to every
property below. -/
def CURRENT_SEAPORT_VERSION : String := "1.5"

/-- Modelled from the spec: `CURRENT_SEAPORT_ADDRESS` lives in the constants
module, which is not among the sources here; the spec records only that it is
the verifying-contract address constant.  Its exact value is irrelevant to
every property below. -/
def CURRENT_SEAPORT_ADDRESS : Nat := 0x00000000000000ADc04C56Bf30aC9d3c0aAF14dC

/-- `SEAPORT_DOMAIN` of `seaport.rs`: name `"Seaport"`, the version and
verifying-contract constants, and — textually in the source — `chain_id: 5`. -/
def SEAPORT_DOMAIN : Eip712Domain :=
  { name := strBytes "Seaport"
    version := strBytes CURRENT_SEAPORT_VERSION
    chain_id := 5
    verifying_contract := CURRENT_SEAPORT_ADDRESS }

/-! ## Field rendering of an order (`OrderComponents::to_json`)

`make_order` serializes the order into the envelope via `to_json`. -/

/-- One lowercase hexadecimal digit. -/
def hexDigitChar (n : Nat) : Char :=
  if n < 10 then Char.ofNat (48 + n) else Char.ofNat (87 + n)

/-- `n` in lowercase hexadecimal, zero-padded on the left to `k` digits. -/
def hexPad (k n : Nat) : String :=
  let ds := Nat.toDigits 16 n
  ⟨List.replicate (k - ds.length) '0' ++ ds⟩

/-- Modelled from the spec: the rendering of a 20-byte address field — its
`0x`-prefixed hexadecimal string form. -/
def addressHex (n : Nat) : String := "0x" ++ hexPad 40 n

/-- Modelled from the spec: the rendering of a 32-byte field — its
`0x`-prefixed hexadecimal string form. -/
def bytes32Hex (n : Nat) : String := "0x" ++ hexPad 64 n

/-- Modelled from the spec: `OfferItem`'s part of `to_json` — the enum as its
underlying small integer, the address in hexadecimal string form, each
256-bit integer in decimal string form. -/
def OfferItem.to_json (i : OfferItem) : Json :=
  .obj [("itemType", .num i.itemType),
        ("token", .str (addressHex i.token)),
        ("identifierOrCriteria", .str (toString i.identifierOrCriteria)),
        ("startAmount", .str (toString i.startAmount)),
        ("endAmount", .str (toString i.endAmount))]

/-- Modelled from the spec: `ConsiderationItem`'s part of `to_json`. -/
def ConsiderationItem.to_json (i : ConsiderationItem) : Json :=
  .obj [("itemType", .num i.itemType),
        ("token", .str (addressHex i.token)),
        ("identifierOrCriteria", .str (toString i.identifierOrCriteria)),
        ("startAmount", .str (toString i.startAmount)),
        ("endAmount", .str (toString i.endAmount)),
        ("recipient", .str (addressHex i.recipient))]

/-- Modelled from the spec: `OrderComponents::to_json` (defined in the types
crate, outside the sources here) — the full canonical field-by-field
rendering of the order: each 256-bit integer and address as its
decimal/hexadecimal string form per field semantics, enums as their
underlying small integers, the item sequences as arrays in construction
order. -/
def OrderComponents.to_json (o : OrderComponents) : Json :=
  .obj [("offerer", .str (addressHex o.offerer)),
        ("zone", .str (addressHex o.zone)),
        ("offer", .arr (o.offer.map OfferItem.to_json)),
        ("consideration", .arr (o.consideration.map ConsiderationItem.to_json)),
        ("orderType", .num o.orderType),
        ("startTime", .str (toString o.startTime)),
        ("endTime", .str (toString o.endTime)),
        ("zoneHash", .str (bytes32Hex o.zoneHash)),
        ("salt", .str (toString o.salt)),
        ("conduitKey", .str (bytes32Hex o.conduitKey)),
        ("counter", .str (toString o.counter))]

/-! ## The RPC session (`crates/requests/src/aori_provider.rs`) -/

/-- Modelled from the spec: `REQUEST_URL` lives in the constants module,
which is not among the sources here; only its role (the request-channel
endpoint) matters below. -/
def REQUEST_URL : String := "wss://api.aori.io"

/-- Modelled from the spec: `MARKET_FEED_URL` lives in the constants module,
which is not among the sources here; only its role (the feed-channel
endpoint) matters below. -/
def MARKET_FEED_URL : String := "wss://feed.aori.io"

/-- The two websocket channels a session owns.  `request` stands for
`request_conn`, `feed` for `feed_conn`. -/
inductive Chan where
  | request
  | feed

/-- `AoriProvider`: the two channel handles are modelled by the chronological
trace `sent` of envelopes successfully written, tagged with their channel;
the wallet by the `sign_hash` capability (a hex signature string, or `none`
when signing fails). -/
structure AoriProvider where
  chain_id : Nat
  last_id : Nat
  wallet_addr : String
  wallet_sig : String
  sign_hash : List Nat → Option String
  sent : List (Chan × Json)

/-- The external collaborators `new_from_env` consumes: the environment
variables, the node connection and its chain-id query, key parsing (yielding
the wallet's digest-signing capability), the plaintext message signature over
the wallet address, and the two websocket connects.  Each is an oracle that
may fail, exactly where the corresponding `?` in the source may. -/
structure World where
  env : String → Option String
  connectNode : String → Option Unit
  getChainId : Option Nat
  parseKey : String → Option (List Nat → Option String)
  signMessage : String → Option String
  connectWs : String → Option Unit

/-- The distinct failure causes of `new_from_env`, one per fallible step, in
source order. -/
inductive ConstructError where
  | missingPrivateKey
  | missingWalletAddress
  | missingNodeUrl
  | nodeConnectError
  | chainIdError
  | keyParseError
  | signMessageError
  | requestConnectError
  | feedConnectError

/-- `AoriProvider::new_from_env`: read the three variables (each absence its
own error), connect to the node, resolve the chain id (narrowed to 64 bits by
`low_u64`), parse the key, sign the wallet address string, connect the two
websockets, and return the session with `last_id: 0` and the `0x`-prefixed
ownership signature. -/
def newFromEnv (w : World) : Except ConstructError AoriProvider :=
  match w.env "PRIVATE_KEY" with
  | none => .error .missingPrivateKey
  | some key =>
  match w.env "WALLET_ADDRESS" with
  | none => .error .missingWalletAddress
  | some address =>
  match w.env "NODE_URL" with
  | none => .error .missingNodeUrl
  | some node =>
  match w.connectNode node with
  | none => .error .nodeConnectError
  | some _ =>
  match w.getChainId with
  | none => .error .chainIdError
  | some cid =>
  match w.parseKey key with
  | none => .error .keyParseError
  | some signer =>
  match w.signMessage address with
  | none => .error .signMessageError
  | some sig =>
  match w.connectWs REQUEST_URL with
  | none => .error .requestConnectError
  | some _ =>
  match w.connectWs MARKET_FEED_URL with
  | none => .error .feedConnectError
  | some _ =>
  .ok { chain_id := cid % 2 ^ 64
        last_id := 0
        wallet_addr := address
        wallet_sig := "0x" ++ sig
        sign_hash := signer
        sent := [] }

/-- The failure causes of one method call: signing failed, or the channel
write failed (tagged with the channel it was attempted on). -/
inductive AoriError where
  | signError
  | sendError (c : Chan)

/-- One method call, with its argument. -/
inductive Call where
  | ping
  | auth_wallet
  | check_auth (jwt : String)
  | view_orderbook (base : String) (quote : String)
  | make_order (o : OrderComponents)
  | subscribe_orderbook

/-- The envelope `ping` builds. -/
def pingEnvelope (id : Nat) : Json :=
  .obj [("id", .num id), ("jsonrpc", .str "2.0"),
        ("method", .str "aori_ping"), ("params", .arr [])]

/-- The envelope `auth_wallet` builds. -/
def authWalletEnvelope (id : Nat) (address signature : String) : Json :=
  .obj [("id", .num id), ("jsonrpc", .str "2.0"),
        ("method", .str "aori_authWallet"),
        ("params", .arr [.obj [("address", .str address), ("signature", .str signature)]])]

/-- The envelope `check_auth` builds; the `jwt` argument is embedded
verbatim. -/
def checkAuthEnvelope (id : Nat) (jwt : String) : Json :=
  .obj [("id", .num id), ("jsonrpc", .str "2.0"),
        ("method", .str "aori_checkAuth"),
        ("params", .arr [.obj [("auth", .str jwt)]])]

/-- The envelope `view_orderbook` builds. -/
def viewOrderbookEnvelope (id : Nat) (chainId : Nat) (base quote : String) : Json :=
  .obj [("id", .num id), ("jsonrpc", .str "2.0"),
        ("method", .str "aori_viewOrderbook"),
        ("params", .arr [.obj [("chainId", .num chainId),
          ("query", .obj [("base", .str base), ("quote", .str quote)])]])]

/-- The envelope `make_order` builds around the signature and the rendered
order. -/
def makeOrderEnvelope (id : Nat) (signature : String) (o : OrderComponents)
    (chainId : Nat) : Json :=
  .obj [("id", .num id), ("jsonrpc", .str "2.0"),
        ("method", .str "aori_makeOrder"),
        ("params", .arr [.obj [
          ("order", .obj [("signature", .str signature), ("parameters", o.to_json)]),
          ("isPublic", .bool true),
          ("chainId", .num chainId)]])]

/-- The envelope `subscribe_orderbook` builds. -/
def subscribeOrderbookEnvelope (id : Nat) : Json :=
  .obj [("id", .num id), ("jsonrpc", .str "2.0"),
        ("method", .str "aori_subscribeOrderbook"), ("params", .arr [])]

/-- The digest `make_order` signs: line 120 of `aori_provider.rs` computes it
from the order and the static `SEAPORT_DOMAIN` alone — the session (`self`)
contributes nothing to it. -/
def makeOrderDigest (h : List Nat → List Nat) (st : AoriProvider)
    (o : OrderComponents) : List Nat :=
  eip712_signing_hash h o SEAPORT_DOMAIN

/-- The envelope a call offers to its channel, built with the fresh id
`newId`: `none` exactly when `make_order`'s signing step fails.  Every call
names `request_conn` except `subscribe_orderbook`, which names `feed_conn`. -/
def envelope (h : List Nat → List Nat) (st : AoriProvider) (newId : Nat) :
    Call → Option (Chan × Json)
  | .ping => some (.request, pingEnvelope newId)
  | .auth_wallet => some (.request, authWalletEnvelope newId st.wallet_addr st.wallet_sig)
  | .check_auth jwt => some (.request, checkAuthEnvelope newId jwt)
  | .view_orderbook base quote =>
      some (.request, viewOrderbookEnvelope newId st.chain_id base quote)
  | .make_order o =>
      (st.sign_hash (makeOrderDigest h st o)).map
        (fun s => (.request, makeOrderEnvelope newId ("0x" ++ s) o st.chain_id))
  | .subscribe_orderbook => some (.feed, subscribeOrderbookEnvelope newId)

/-- One method call on the session.  Every method first increments `last_id`
(`self.last_id += 1`), then builds its envelope, then attempts the send, whose
outcome the oracle `sendOk` decides; failures return early via `?` and roll
nothing back. -/
def run (h : List Nat → List Nat) (st : AoriProvider) (c : Call) (sendOk : Bool) :
    AoriProvider × Except AoriError Unit :=
  let newId := st.last_id + 1
  let st1 := { st with last_id := newId }
  match envelope h st newId c with
  | none => (st1, .error .signError)
  | some (ch, e) =>
      if sendOk then
        ({ st1 with sent := st1.sent ++ [(ch, e)] }, .ok ())
      else
        (st1, .error (.sendError ch))

/-- A sequence of calls on one session, each with its send outcome, threading
the state and collecting the results in call order. -/
def runList (h : List Nat → List Nat) :
    AoriProvider → List (Call × Bool) → AoriProvider × List (Except AoriError Unit)
  | st, [] => (st, [])
  | st, (c, b) :: rest =>
      let step := run h st c b
      let tail := runList h step.1 rest
      (tail.1, step.2 :: tail.2)

/-! ## Helper lemmas -/

theorem wordAux_length : ∀ (k n : Nat), (wordAux k n).length = k
  | 0, _ => rfl
  | k + 1, n => by simp [wordAux, wordAux_length k]

theorem wordAux_inj : ∀ (k n m : Nat), n < 256 ^ k → m < 256 ^ k →
    wordAux k n = wordAux k m → n = m
  | 0, n, m, hn, hm, _ => by
      simp [Nat.pow_zero, Nat.lt_one_iff] at hn hm
      omega
  | k + 1, n, m, hn, hm, heq => by
      simp only [wordAux] at heq
      have hlen : (wordAux k (n / 256)).length = (wordAux k (m / 256)).length := by
        simp [wordAux_length]
      obtain ⟨h1, h2⟩ := List.append_inj heq hlen
      have hdn : n / 256 < 256 ^ k := by
        have : n < 256 ^ k * 256 := by
          simpa [Nat.pow_succ] using hn
        omega
      have hdm : m / 256 < 256 ^ k := by
        have : m < 256 ^ k * 256 := by
          simpa [Nat.pow_succ] using hm
        omega
      have hd : n / 256 = m / 256 := wordAux_inj k _ _ hdn hdm h1
      have hr : n % 256 = m % 256 := by simpa using h2
      omega

theorem word_length (n : Nat) : (word n).length = 32 := wordAux_length 32 n

theorem word_inj {n m : Nat} (hn : n < 256 ^ 32) (hm : m < 256 ^ 32)
    (h : word n = word m) : n = m := wordAux_inj 32 n m hn hm h

theorem encodeDomain_chain_id_inj (h : List Nat → List Nat)
    (hlen : ∀ x, (h x).length = 32) (d1 d2 : Eip712Domain)
    (hc1 : d1.chain_id < 256 ^ 32) (hc2 : d2.chain_id < 256 ^ 32)
    (heq : encodeDomain h d1 = encodeDomain h d2) : d1.chain_id = d2.chain_id := by
  unfold encodeDomain at heq
  obtain ⟨_, heq⟩ := List.append_inj heq (by simp [hlen])
  obtain ⟨_, heq⟩ := List.append_inj heq (by simp [hlen])
  obtain ⟨_, heq⟩ := List.append_inj heq (by simp [hlen])
  obtain ⟨heq, _⟩ := List.append_inj heq (by simp [word_length])
  exact word_inj hc1 hc2 heq

theorem newFromEnv_ok {w : World} {st : AoriProvider} (hcons : newFromEnv w = .ok st) :
    st.last_id = 0 ∧ st.sent = [] ∧ ∃ s, st.wallet_sig = "0x" ++ s := by
  unfold newFromEnv at hcons
  repeat' split at hcons
  all_goals cases hcons
  all_goals exact ⟨rfl, rfl, _, rfl⟩

def Call.chan : Call → Chan
  | .subscribe_orderbook => .feed
  | _ => .request

theorem envelope_some {h : List Nat → List Nat} {st : AoriProvider} {n : Nat} {c : Call}
    {ch : Chan} {e : Json} (henv : envelope h st n c = some (ch, e)) :
    ch = c.chan ∧ Json.getField e "id" = some (.num n) := by
  cases c <;> simp [envelope, Call.chan] at henv ⊢
  case ping => obtain ⟨h1, h2⟩ := henv; subst h1; subst h2; exact ⟨rfl, rfl⟩
  case auth_wallet => obtain ⟨h1, h2⟩ := henv; subst h1; subst h2; exact ⟨rfl, rfl⟩
  case check_auth => obtain ⟨h1, h2⟩ := henv; subst h1; subst h2; exact ⟨rfl, rfl⟩
  case view_orderbook => obtain ⟨h1, h2⟩ := henv; subst h1; subst h2; exact ⟨rfl, rfl⟩
  case subscribe_orderbook => obtain ⟨h1, h2⟩ := henv; subst h1; subst h2; exact ⟨rfl, rfl⟩
  case make_order o =>
    obtain ⟨s, hs, h1, h2⟩ := henv
    subst h1; subst h2; exact ⟨rfl, rfl⟩

theorem run_last_id (h : List Nat → List Nat) (st : AoriProvider) (c : Call) (b : Bool) :
    (run h st c b).1.last_id = st.last_id + 1 := by
  cases henv : envelope h st (st.last_id + 1) c with
  | none => simp [run, henv]
  | some p =>
    obtain ⟨ch, e⟩ := p
    cases b <;> simp [run, henv]

theorem run_ok_dest {h : List Nat → List Nat} {st : AoriProvider} {c : Call} {b : Bool}
    (hok : (run h st c b).2 = .ok ()) :
    b = true ∧ ∃ ch e, envelope h st (st.last_id + 1) c = some (ch, e) ∧
      (run h st c b).1 = { st with last_id := st.last_id + 1, sent := st.sent ++ [(ch, e)] } := by
  cases henv : envelope h st (st.last_id + 1) c with
  | none => simp [run, henv] at hok
  | some p =>
    obtain ⟨ch, e⟩ := p
    cases b with
    | false => simp [run, henv] at hok
    | true => exact ⟨rfl, ch, e, rfl, by simp [run, henv]⟩

theorem run_err_sent {h : List Nat → List Nat} {st : AoriProvider} {c : Call} {b : Bool}
    (herr : (run h st c b).2 ≠ .ok ()) : (run h st c b).1.sent = st.sent := by
  cases henv : envelope h st (st.last_id + 1) c with
  | none => simp [run, henv]
  | some p =>
    obtain ⟨ch, e⟩ := p
    cases b with
    | false => simp [run, henv]
    | true => exact absurd (by simp [run, henv]) herr

theorem except_isOk_unit {r : Except AoriError Unit} (hr : r.isOk = true) : r = .ok () := by
  cases r with
  | ok u => cases u; rfl
  | error e => simp [Except.isOk, Except.toBool] at hr

theorem runList_ok_ids (h : List Nat → List Nat) :
    ∀ (cs : List (Call × Bool)) (st : AoriProvider),
      ((runList h st cs).2.all Except.isOk) = true →
      (runList h st cs).1.last_id = st.last_id + cs.length
      ∧ (runList h st cs).1.sent.map (fun p => Json.getField p.2 "id")
        = st.sent.map (fun p => Json.getField p.2 "id")
          ++ (List.range' (st.last_id + 1) cs.length).map (fun n => some (Json.num n))
  | [], st, _ => by simp [runList]
  | (c, b) :: rest, st, hall => by
      simp only [runList, List.all_cons, Bool.and_eq_true] at hall
      obtain ⟨hok1, hrest⟩ := hall
      have hok : (run h st c b).2 = .ok () := except_isOk_unit hok1
      obtain ⟨-, ch, e, henv, hst'⟩ := run_ok_dest hok
      obtain ⟨-, hid⟩ := envelope_some henv
      have IH := runList_ok_ids h rest (run h st c b).1 hrest
      rw [hst'] at IH
      obtain ⟨IH1, IH2⟩ := IH
      simp only [runList]
      rw [hst']
      constructor
      · rw [IH1]; simp; omega
      · rw [IH2]
        simp only [List.map_append, List.map_cons, List.map_nil, List.length_cons]
        have h2 : st.last_id + 1 + 1 = st.last_id + 2 := rfl
        simp [hid, List.range'_succ, List.append_assoc, h2]

theorem newFromEnv_isOk_iff (w : World) :
    (newFromEnv w).isOk = true ↔
      ∃ key address node,
        w.env "PRIVATE_KEY" = some key ∧
        w.env "WALLET_ADDRESS" = some address ∧
        w.env "NODE_URL" = some node ∧
        (w.connectNode node).isSome = true ∧
        w.getChainId.isSome = true ∧
        (w.parseKey key).isSome = true ∧
        (w.signMessage address).isSome = true ∧
        (w.connectWs REQUEST_URL).isSome = true ∧
        (w.connectWs MARKET_FEED_URL).isSome = true := by
  constructor
  · intro hok
    unfold newFromEnv at hok
    repeat' split at hok
    all_goals simp_all [Except.isOk, Except.toBool]
  · rintro ⟨key, address, node, hk, ha, hn, hcn, hcid, hpk, hsm, hw1, hw2⟩
    obtain ⟨u1, hcn'⟩ := Option.isSome_iff_exists.mp hcn
    obtain ⟨cid, hcid'⟩ := Option.isSome_iff_exists.mp hcid
    obtain ⟨signer, hpk'⟩ := Option.isSome_iff_exists.mp hpk
    obtain ⟨sig, hsm'⟩ := Option.isSome_iff_exists.mp hsm
    obtain ⟨u2, hw1'⟩ := Option.isSome_iff_exists.mp hw1
    obtain ⟨u3, hw2'⟩ := Option.isSome_iff_exists.mp hw2
    unfold newFromEnv
    simp only [hk, ha, hn, hcn', hcid', hpk', hsm', hw1', hw2', Except.isOk, Except.toBool]

/-! ## Concrete instances used by witnesses -/

/-- A trivial stand-in for the hash parameter where no digest property is at
stake. -/
def hTriv : List Nat → List Nat := fun _ => []

/-- A concrete, never-failing signer. -/
def signerW : List Nat → Option String := fun _ => some "f00d"

/-- A fully successful construction world resolving chain id 5. -/
def wA : World :=
  { env := fun k =>
      if k = "PRIVATE_KEY" then some "pk"
      else if k = "WALLET_ADDRESS" then some "0xAddr"
      else if k = "NODE_URL" then some "node"
      else none
    connectNode := fun _ => some ()
    getChainId := some 5
    parseKey := fun _ => some signerW
    signMessage := fun _ => some "11"
    connectWs := fun _ => some () }

/-- The session `newFromEnv` constructs from `wA`. -/
def providerA : AoriProvider :=
  { chain_id := 5 % 2 ^ 64
    last_id := 0
    wallet_addr := "0xAddr"
    wallet_sig := "0x" ++ "11"
    sign_hash := signerW
    sent := [] }

/-- The same world, but the connected network reports chain id 1. -/
def wB : World := { wA with getChainId := some 1 }

/-- An injective 32-entry hash: the whole input coded into the head entry. -/
def hEnc : List Nat → List Nat := fun xs => Encodable.encode xs :: List.replicate 31 0

theorem hEnc_inj : Function.Injective hEnc := by
  intro a b hab
  simp only [hEnc] at hab
  injection hab with h1 _
  exact Encodable.encode_injective h1

theorem hEnc_len : ∀ x, (hEnc x).length = 32 := fun _ => rfl

/-- The scenario order of the spec: one ERC20 offer item of start amount
1000, one ERC20 consideration item of start amount 1500 whose recipient is
the offerer. -/
def offerW : OfferItem :=
  { itemType := ItemType.ERC20.toNat
    token := 0
    identifierOrCriteria := 0
    startAmount := 1000
    endAmount := 1000 }

def considerationW : ConsiderationItem :=
  { itemType := ItemType.ERC20.toNat
    token := 0
    identifierOrCriteria := 0
    startAmount := 1500
    endAmount := 1500
    recipient := 7 }

def orderW : OrderComponents :=
  { offerer := 7
    zone := 0
    offer := [offerW]
    consideration := [considerationW]
    orderType := OrderType.PARTIAL_RESTRICTED.toNat
    startTime := 0
    endTime := 1
    zoneHash := 0
    salt := 0
    conduitKey := 0
    counter := 0 }

/-! ## The claims -/

/-- C6: for every order and every two domains whose `chain_id`s differ, the
typed digests differ — the chain id enters the domain's encoding as a 32-byte
word at a fixed offset, so distinct chain ids force distinct hash preimages
at every level of the pipeline (given that the final cryptographic hash `h`
is injective on its inputs and 32 bytes wide). -/
theorem digest_domain_separation (h : List Nat → List Nat) (o : OrderComponents)
    (d1 d2 : Eip712Domain) (hinj : Function.Injective h)
    (hlen : ∀ x, (h x).length = 32)
    (hc1 : d1.chain_id < 256 ^ 32) (hc2 : d2.chain_id < 256 ^ 32)
    (hne : d1.chain_id ≠ d2.chain_id) :
    eip712_signing_hash h o d1 ≠ eip712_signing_hash h o d2 := by
  intro heq
  apply hne
  apply encodeDomain_chain_id_inj h hlen d1 d2 hc1 hc2
  apply hinj
  unfold eip712_signing_hash at heq
  have h1 := hinj heq
  have h2 : domainSeparator h d1 ++ hashStructOrder h o
      = domainSeparator h d2 ++ hashStructOrder h o :=
    congrArg (fun l => List.tail (List.tail l)) h1
  exact (List.append_inj h2 (by simp [domainSeparator, hlen])).1

/-- C6 witness: the claim's hypotheses hold and its conclusion follows at the
scenario order, two concrete domains with chain ids 1 and 5, and the
injective 32-entry hash `hEnc`. -/
theorem digest_domain_separation_witness :
    Function.Injective hEnc ∧ (∀ x, (hEnc x).length = 32)
    ∧ ({ SEAPORT_DOMAIN with chain_id := 1 } : Eip712Domain).chain_id < 256 ^ 32
    ∧ SEAPORT_DOMAIN.chain_id < 256 ^ 32
    ∧ ({ SEAPORT_DOMAIN with chain_id := 1 } : Eip712Domain).chain_id ≠ SEAPORT_DOMAIN.chain_id
    ∧ eip712_signing_hash hEnc orderW { SEAPORT_DOMAIN with chain_id := 1 }
        ≠ eip712_signing_hash hEnc orderW SEAPORT_DOMAIN :=
  ⟨hEnc_inj, hEnc_len, by decide, by decide, by decide,
    digest_domain_separation hEnc orderW _ _ hEnc_inj hEnc_len (by decide) (by decide) (by decide)⟩

/-- C7: the digest is a pure function of the order and the domain —
structurally equal inputs give byte-identical output, and (given a 32-byte
hash) the output is exactly 32 bytes. -/
theorem digest_deterministic (h : List Nat → List Nat) (o1 o2 : OrderComponents)
    (d1 d2 : Eip712Domain) (ho : o1 = o2) (hd : d1 = d2)
    (hlen : ∀ x, (h x).length = 32) :
    eip712_signing_hash h o1 d1 = eip712_signing_hash h o2 d2
    ∧ (eip712_signing_hash h o1 d1).length = 32 := by
  subst ho; subst hd
  exact ⟨rfl, hlen _⟩

/-- C7 witness: the determinism claim applied at the scenario order and the
Seaport domain. -/
theorem digest_deterministic_witness :
    eip712_signing_hash hEnc orderW SEAPORT_DOMAIN
      = eip712_signing_hash hEnc orderW SEAPORT_DOMAIN
    ∧ (eip712_signing_hash hEnc orderW SEAPORT_DOMAIN).length = 32 :=
  digest_deterministic hEnc orderW orderW SEAPORT_DOMAIN SEAPORT_DOMAIN rfl rfl hEnc_len

/-- C9: the digest `make_order` signs is a function of the order and the
fixed process-wide `SEAPORT_DOMAIN` only: two sessions — whatever their
resolved `chain_id`s — compute the same digest for the same order, and with
the same wallet they produce the identical signature. -/
theorem digest_ignores_session_chain_id :
    ∀ (h : List Nat → List Nat) (st1 st2 : AoriProvider) (o : OrderComponents),
      makeOrderDigest h st1 o = eip712_signing_hash h o SEAPORT_DOMAIN
      ∧ makeOrderDigest h st1 o = makeOrderDigest h st2 o
      ∧ (st1.sign_hash = st2.sign_hash →
          st1.sign_hash (makeOrderDigest h st1 o) = st2.sign_hash (makeOrderDigest h st2 o)) :=
  fun _ _ _ _ => ⟨rfl, rfl, fun hw => by rw [hw]; exact rfl⟩

/-- C1 (amended): the domain descriptor `make_order` digests against is the
process-wide `SEAPORT_DOMAIN`, whose `chain_id` is the fixed literal 5; it
agrees with a constructed session's resolved `chain_id` exactly when that
session's chain id is 5. -/
theorem make_order_domain_chain_id_amended (w : World) (st : AoriProvider)
    (hcons : newFromEnv w = .ok st) :
    SEAPORT_DOMAIN.chain_id = 5
    ∧ (∀ h o, makeOrderDigest h st o = eip712_signing_hash h o SEAPORT_DOMAIN)
    ∧ (SEAPORT_DOMAIN.chain_id = st.chain_id ↔ st.chain_id = 5) :=
  ⟨rfl, fun _ _ => rfl, ⟨fun hh => hh.symm, fun hh => hh.symm⟩⟩

/-- C1 counterexample: a session constructed against a network reporting
chain id 1 carries `chain_id = 1`, while the domain `make_order` digests
against carries `chain_id = 5` — the two disagree, refuting the claim that
they always coincide. -/
theorem make_order_domain_chain_id_counterexample :
    (newFromEnv wB).map (fun st => (SEAPORT_DOMAIN.chain_id, st.chain_id)) = .ok (5, 1)
    ∧ (5 : Nat) ≠ 1 :=
  ⟨rfl, by decide⟩

/-- C1 witness: the amended claim applied to the session constructed from
`wA` (which resolves chain id 5). -/
theorem make_order_domain_chain_id_amended_witness :
    newFromEnv wA = .ok providerA
    ∧ (SEAPORT_DOMAIN.chain_id = 5
      ∧ (∀ h o, makeOrderDigest h providerA o = eip712_signing_hash h o SEAPORT_DOMAIN)
      ∧ (SEAPORT_DOMAIN.chain_id = providerA.chain_id ↔ providerA.chain_id = 5)) :=
  ⟨rfl, make_order_domain_chain_id_amended wA providerA rfl⟩

/-- The single object inside an envelope's `params` array. -/
def paramsObj (e : Json) : Option Json := (Json.getField e "params").bind Json.arrHead

/-- The `params[0].order.parameters` object of a `make_order` envelope. -/
def orderParameters (e : Json) : Option Json :=
  ((paramsObj e).bind (fun j => Json.getField j "order")).bind
    (fun j => Json.getField j "parameters")

/-- Field `k` of the first offer item rendered inside a `make_order`
envelope (`params[0].order.parameters.offer[0].k`). -/
def firstOfferField (e : Json) (k : String) : Option Json :=
  (((orderParameters e).bind (fun j => Json.getField j "offer")).bind Json.arrHead).bind
    (fun j => Json.getField j k)

/-- A send with `sendOk = false` never reports success. -/
theorem run_false_fails (h : List Nat → List Nat) (st : AoriProvider) (c : Call) :
    (run h st c false).2 ≠ .ok () := by
  cases henv : envelope h st (st.last_id + 1) c with
  | none => simp [run, henv]
  | some p =>
    obtain ⟨ch, e⟩ := p
    simp [run, henv]

/-- C2: starting from a freshly constructed session, any run of calls whose
results are all successful emits envelopes whose ids are exactly
`1, 2, …, N` in send order, and leaves the counter at `N`. -/
theorem session_ids_exact_range (h : List Nat → List Nat) (w : World)
    (st0 : AoriProvider) (cs : List (Call × Bool))
    (hcons : newFromEnv w = .ok st0)
    (hok : ((runList h st0 cs).2.all Except.isOk) = true) :
    (runList h st0 cs).1.sent.map (fun p => Json.getField p.2 "id")
      = (List.range' 1 cs.length).map (fun n => some (Json.num n))
    ∧ (runList h st0 cs).1.last_id = cs.length := by
  obtain ⟨hl, hs, -⟩ := newFromEnv_ok hcons
  obtain ⟨h1, h2⟩ := runList_ok_ids h cs st0 hok
  rw [hl] at h1
  rw [hs, hl] at h2
  simp at h2
  refine ⟨h2, by simpa using h1⟩

/-- The three-call successful sequence used by the C2 witness. -/
def csW : List (Call × Bool) :=
  [(Call.ping, true), (Call.view_orderbook "ETH" "USDC", true), (Call.subscribe_orderbook, true)]

/-- C2 witness: the id-range claim applied to the session constructed from
`wA` and three successful calls. -/
theorem session_ids_exact_range_witness :
    newFromEnv wA = .ok providerA
    ∧ ((runList hTriv providerA csW).2.all Except.isOk) = true
    ∧ ((runList hTriv providerA csW).1.sent.map (fun p => Json.getField p.2 "id")
        = (List.range' 1 csW.length).map (fun n => some (Json.num n))
      ∧ (runList hTriv providerA csW).1.last_id = csW.length) :=
  ⟨rfl, rfl, session_ids_exact_range hTriv wA providerA csW rfl rfl⟩

/-- C3: a successful `make_order` appends exactly one envelope to the request
trace — id incremented once, method `aori_makeOrder`, params a one-object
array holding the `0x`-prefixed digest-mode signature, the full rendered
order, `isPublic: true` and the session's chain id — and for an order whose
first offer item has start amount `a`, the rendered
`params[0].order.parameters.offer[0].startAmount` is the decimal string of
`a`. -/
theorem make_order_envelope_shape (h : List Nat → List Nat) (st : AoriProvider)
    (o : OrderComponents) (s : String)
    (hs : st.sign_hash (makeOrderDigest h st o) = some s) :
    run h st (.make_order o) true
      = ({ st with
            last_id := st.last_id + 1
            sent := st.sent ++ [(Chan.request,
              makeOrderEnvelope (st.last_id + 1) ("0x" ++ s) o st.chain_id)] }, .ok ())
    ∧ (paramsObj (makeOrderEnvelope (st.last_id + 1) ("0x" ++ s) o st.chain_id)).bind
        (fun j => Json.getField j "isPublic") = some (.bool true)
    ∧ ((paramsObj (makeOrderEnvelope (st.last_id + 1) ("0x" ++ s) o st.chain_id)).bind
        (fun j => Json.getField j "order")).bind (fun j => Json.getField j "signature")
        = some (.str ("0x" ++ s))
    ∧ (paramsObj (makeOrderEnvelope (st.last_id + 1) ("0x" ++ s) o st.chain_id)).bind
        (fun j => Json.getField j "chainId") = some (.num st.chain_id)
    ∧ (∀ i rest, o.offer = i :: rest →
        firstOfferField (makeOrderEnvelope (st.last_id + 1) ("0x" ++ s) o st.chain_id)
          "startAmount" = some (.str (toString i.startAmount))) := by
  refine ⟨?_, rfl, rfl, rfl, ?_⟩
  · simp [run, envelope, hs]
  · intro i rest ho
    simp [firstOfferField, orderParameters, paramsObj, makeOrderEnvelope, Json.getField,
      Json.arrHead, List.lookup, OrderComponents.to_json, ho, OfferItem.to_json]

/-- C3 witness: the envelope-shape claim applied at the scenario order (one
ERC20 offer item of start amount 1000) on the session constructed from `wA`,
whose signer yields `"f00d"`; in particular the rendered start amount is the
string `"1000"` and `isPublic` is `true`. -/
theorem make_order_envelope_shape_witness :
    providerA.sign_hash (makeOrderDigest hTriv providerA orderW) = some "f00d"
    ∧ (paramsObj (makeOrderEnvelope 1 ("0x" ++ "f00d") orderW providerA.chain_id)).bind
        (fun j => Json.getField j "isPublic") = some (.bool true)
    ∧ firstOfferField (makeOrderEnvelope 1 ("0x" ++ "f00d") orderW providerA.chain_id)
        "startAmount" = some (.str "1000") :=
  ⟨rfl,
    (make_order_envelope_shape hTriv providerA orderW "f00d" rfl).2.1,
    (make_order_envelope_shape hTriv providerA orderW "f00d" rfl).2.2.2.2 offerW [] rfl⟩

/-- C4: on a freshly constructed session, `ping` then `auth_wallet` then
`check_auth "tok123"` all succeed and emit, in order and all on the request
channel, the envelopes with ids 1, 2, 3 and the advertised shapes; the
session's ownership signature begins with `0x` and is non-empty, and the
`check_auth` token argument is embedded verbatim for every caller-supplied
string (quote characters included). -/
theorem handshake_scenario (h : List Nat → List Nat) (w : World) (st : AoriProvider)
    (hcons : newFromEnv w = .ok st) :
    ((run h st .ping true).2 = .ok ()
      ∧ (run h (run h st .ping true).1 .auth_wallet true).2 = .ok ()
      ∧ (run h (run h (run h st .ping true).1 .auth_wallet true).1
          (.check_auth "tok123") true).2 = .ok ())
    ∧ (run h (run h (run h st .ping true).1 .auth_wallet true).1
        (.check_auth "tok123") true).1.sent
        = [(Chan.request, pingEnvelope 1),
           (Chan.request, authWalletEnvelope 2 st.wallet_addr st.wallet_sig),
           (Chan.request, checkAuthEnvelope 3 "tok123")]
    ∧ (∃ sg, st.wallet_sig = "0x" ++ sg)
    ∧ 2 ≤ st.wallet_sig.length
    ∧ pingEnvelope 1 = Json.obj [("id", .num 1), ("jsonrpc", .str "2.0"),
        ("method", .str "aori_ping"), ("params", .arr [])]
    ∧ (∀ jwt n, paramsObj (checkAuthEnvelope n jwt) = some (.obj [("auth", .str jwt)])) := by
  obtain ⟨hl, hsent, sg, hsig⟩ := newFromEnv_ok hcons
  refine ⟨⟨?_, ?_, ?_⟩, ?_, ⟨sg, hsig⟩, ?_, rfl, fun _ _ => rfl⟩
  · simp [run, envelope]
  · simp [run, envelope]
  · simp [run, envelope]
  · simp [run, envelope, hl, hsent]
  · rw [hsig, String.length_append]
    have h2 : "0x".length = 2 := rfl
    omega

/-- C4 witness: the handshake scenario applied to the session constructed
from `wA`. -/
theorem handshake_scenario_witness :
    newFromEnv wA = .ok providerA
    ∧ (((run hTriv providerA .ping true).2 = .ok ()
        ∧ (run hTriv (run hTriv providerA .ping true).1 .auth_wallet true).2 = .ok ()
        ∧ (run hTriv (run hTriv (run hTriv providerA .ping true).1 .auth_wallet true).1
            (.check_auth "tok123") true).2 = .ok ())
      ∧ (run hTriv (run hTriv (run hTriv providerA .ping true).1 .auth_wallet true).1
          (.check_auth "tok123") true).1.sent
          = [(Chan.request, pingEnvelope 1),
             (Chan.request, authWalletEnvelope 2 providerA.wallet_addr providerA.wallet_sig),
             (Chan.request, checkAuthEnvelope 3 "tok123")]
      ∧ (∃ sg, providerA.wallet_sig = "0x" ++ sg)
      ∧ 2 ≤ providerA.wallet_sig.length
      ∧ pingEnvelope 1 = Json.obj [("id", .num 1), ("jsonrpc", .str "2.0"),
          ("method", .str "aori_ping"), ("params", .arr [])]
      ∧ (∀ jwt n, paramsObj (checkAuthEnvelope n jwt) = some (.obj [("auth", .str jwt)]))) :=
  ⟨rfl, handshake_scenario hTriv wA providerA rfl⟩

/-- C5: every envelope a call appends to the trace goes to the feed channel
when the call is `subscribe_orderbook` and to the request channel otherwise,
and a successful call appends exactly one envelope. -/
theorem channel_routing :
    ∀ (h : List Nat → List Nat) (st : AoriProvider) (c : Call) (b : Bool),
      ∃ r, (run h st c b).1.sent = st.sent ++ r
        ∧ (∀ p ∈ r, p.1 = (match c with
            | Call.subscribe_orderbook => Chan.feed
            | _ => Chan.request))
        ∧ ((run h st c b).2 = .ok () → r.length = 1) := by
  intro h st c b
  cases henv : envelope h st (st.last_id + 1) c with
  | none =>
    refine ⟨[], by simp [run, henv], by simp, ?_⟩
    intro hok
    simp [run, henv] at hok
  | some p =>
    obtain ⟨ch, e⟩ := p
    obtain ⟨hch, -⟩ := envelope_some henv
    cases b with
    | false =>
      refine ⟨[], by simp [run, henv], by simp, ?_⟩
      intro hok
      simp [run, henv] at hok
    | true =>
      refine ⟨[(ch, e)], by simp [run, henv], ?_, fun _ => rfl⟩
      intro p hp
      rw [List.mem_singleton] at hp
      subst hp
      exact hch

/-- C8: construction succeeds exactly when every underlying step succeeds
(each failure surfacing as its own error), and a method call reports `Ok`
exactly when its envelope was built and its send completed; signing and send
failures each map to their distinct error value, and success always appends
the envelope. -/
theorem error_propagation :
    (∀ w : World, (newFromEnv w).isOk = true ↔
      ∃ key address node,
        w.env "PRIVATE_KEY" = some key ∧
        w.env "WALLET_ADDRESS" = some address ∧
        w.env "NODE_URL" = some node ∧
        (w.connectNode node).isSome = true ∧
        w.getChainId.isSome = true ∧
        (w.parseKey key).isSome = true ∧
        (w.signMessage address).isSome = true ∧
        (w.connectWs REQUEST_URL).isSome = true ∧
        (w.connectWs MARKET_FEED_URL).isSome = true)
    ∧ (∀ (h : List Nat → List Nat) (st : AoriProvider) (c : Call) (b : Bool),
        ((run h st c b).2 = .ok () ↔
          b = true ∧ (envelope h st (st.last_id + 1) c).isSome = true)
        ∧ (envelope h st (st.last_id + 1) c = none →
            (run h st c b).2 = .error .signError)
        ∧ (∀ ch e, envelope h st (st.last_id + 1) c = some (ch, e) → b = false →
            (run h st c b).2 = .error (.sendError ch))
        ∧ ((run h st c b).2 = .ok () →
            ∃ ch e, (run h st c b).1.sent = st.sent ++ [(ch, e)])) := by
  refine ⟨newFromEnv_isOk_iff, ?_⟩
  intro h st c b
  refine ⟨?_, ?_, ?_, ?_⟩
  · cases henv : envelope h st (st.last_id + 1) c with
    | none => simp [run, henv]
    | some p =>
      obtain ⟨ch, e⟩ := p
      cases b <;> simp [run, henv]
  · intro henv
    simp [run, henv]
  · intro ch e henv hb
    subst hb
    simp [run, henv]
  · intro hok
    obtain ⟨-, ch, e, -, hst'⟩ := run_ok_dest hok
    exact ⟨ch, e, by rw [hst']⟩

/-- C10: every call increments `last_id` before its send, and a failure rolls
nothing back: the state after any call carries `last_id + 1`, a failed call
leaves the trace unchanged, a send with a failed channel write never reports
success, and an envelope appended by the next (successful) call carries id
`last_id + 2` — the id consumed by the failed call never reaches the wire. -/
theorem last_id_not_rolled_back :
    ∀ (h : List Nat → List Nat) (st : AoriProvider) (c c' : Call) (b : Bool),
      (run h st c b).1.last_id = st.last_id + 1
      ∧ ((run h st c b).2 = .ok () ∨ (run h st c b).1.sent = st.sent)
      ∧ (run h st c false).2 ≠ .ok ()
      ∧ (∀ p, p ∈ (run h (run h st c false).1 c' true).1.sent →
          p ∈ st.sent ∨ Json.getField p.2 "id" = some (Json.num (st.last_id + 2))) := by
  intro h st c c' b
  refine ⟨run_last_id h st c b, ?_, run_false_fails h st c, ?_⟩
  · by_cases hok : (run h st c b).2 = .ok ()
    · exact Or.inl hok
    · exact Or.inr (run_err_sent hok)
  · intro p hp
    set st1 := (run h st c false).1 with hst1
    have hsent : st1.sent = st.sent := run_err_sent (run_false_fails h st c)
    have hlast : st1.last_id = st.last_id + 1 := run_last_id h st c false
    cases henv : envelope h st1 (st1.last_id + 1) c' with
    | none =>
      left
      rw [← hsent]
      rw [@run_err_sent h st1 c' true (by simp [run, henv])] at hp
      exact hp
    | some q =>
      obtain ⟨ch, e⟩ := q
      obtain ⟨-, hid⟩ := envelope_some henv
      obtain ⟨-, ch2, e2, henv2, hst2⟩ := @run_ok_dest h st1 c' true (by simp [run, henv])
      rw [henv] at henv2
      injection henv2 with hq
      injection hq with hch he
      rw [hst2] at hp
      simp at hp
      rcases hp with hp | hp
      · left
        rw [← hsent]
        exact hp
      · right
        rw [hp]
        subst he
        rw [hid, hlast]
